import Mathlib

/-!
Verification of the Benchcraft allocation-ledger core against its
specification.

The Python sources are shallowly embedded as follows:

* Dates are integers, read as Python `date.toordinal()` values (day counts
  in the proleptic Gregorian calendar); `none` stands for SQL NULL.
  `date(2099, 12, 31).toordinal() = 766644` is the far-future sentinel used
  by the overlap validator.
* SQLAlchemy ORM rows become structures.  Fields that the Python code reads
  defensively (`getattr(..., None)` chains, truthiness tests) are `Option`s,
  mirroring the fact that an in-memory `Allocation` object can carry `None`
  in any column before flush-time defaults are applied.
* A database session becomes an explicit record of lists; endpoint handlers
  become state-transition functions returning the post-commit state (the
  pre-state when the request is rejected or the write-time gate raises).
* Python floats in the financial formulas are embedded as rationals; the
  value ranges involved (products of percentages and 160 hours) are small
  enough that binary floating point represents every intermediate exactly
  up to an error far below the distance to the nearest rounding boundary,
  so `Int`/`Rat` arithmetic is faithful to the observed values.
-/

namespace Benchcraft

/-- Employee status enum (`models.py`, `class EmployeeStatus`). -/
inductive EmployeeStatus where
  | BENCH
  | ALLOCATED
  | NOTICE_PERIOD
deriving DecidableEq

/-- Rate card type enum (`models.py`, `class RateType`). -/
inductive RateType where
  | BASE
  | DOMAIN_SPECIFIC
deriving DecidableEq

/-- Employee row (`models.py`, `class Employee`); only the columns the
verified core reads. -/
structure Employee where
  id : Nat
  first_name : String
  last_name : String
  status : EmployeeStatus
  ctc_monthly : Rat
deriving DecidableEq

/-- Project row (`models.py`, `class Project`); only the columns the
verified core reads (`budget_cap` is nullable). -/
structure Project where
  id : Nat
  budget_cap : Option Rat
deriving DecidableEq

/-- Allocation row / in-memory ORM object (`models.py`, `class Allocation`).
The three percentage columns and `is_trainee` are `NOT NULL` with defaults
in the schema, but the Python-side defaults are only applied at flush time,
after the `before_insert` validation event, and the validator and status
code read them through `getattr`/`is None` fallbacks; they are therefore
embedded as `Option`s, with `none` for an unset attribute. -/
structure Alloc where
  id : Nat
  emp_id : Nat
  proj_id : Nat
  start_date : Int
  end_date : Option Int
  billing_rate : Option Rat
  allocation_percentage : Option Int
  billable_percentage : Option Int
  internal_allocation_percentage : Option Int
  utilization : Option Int
  is_trainee : Option Bool
  mentoring_primary_emp_id : Option Nat
deriving DecidableEq

/-- Rate card row (`models.py`, `class RateCard`). -/
structure RateCard where
  id : Nat
  emp_id : Nat
  domain_id : Option Nat
  hourly_rate : Rat
  effective_date : Int
  expiry_date : Option Int
  rate_type : RateType
  is_active : Bool
deriving DecidableEq

/-- Database state visible to the verified core: the persisted rows a
SQLAlchemy session can query and mutate. -/
structure Db where
  allocations : List Alloc
  employees : List Employee
  projects : List Project
deriving DecidableEq

/-- Python `date(2099, 12, 31).toordinal()`: the sentinel the validator
substitutes for a missing end date (`allocation_validator.py` line 43). -/
def farFutureOrdinal : Int := 766644

/-- Truthiness of a Python optional object (None is falsy, any date/object
is truthy): `x if x else sentinel` becomes `pyOrElse x sentinel`. -/
def pyOrElse (x : Option Int) (sentinel : Int) : Int :=
  match x with
  | some v => v
  | none => sentinel

/-- Exclusion filter of `allocation_validator.py` lines 34-35: the filter is
applied only when `exclude_allocation_id` is truthy (`if exclude_allocation_id:`
— a `None` or `0` id applies no exclusion), and then keeps rows with a
different id. -/
def passesExclusion (excl : Option Nat) (a : Alloc) : Bool :=
  match excl with
  | some x => if x = 0 then true else a.id != x
  | none => true

/-- Overlap test of `allocation_validator.py` lines 42-47: with the far-future
sentinel substituted for missing end dates, the row overlaps the candidate
range iff `alloc_start <= new_end` and `start_date <= alloc_end`. -/
def overlapsCandidate (a : Alloc) (start_date : Int) (end_date : Option Int) : Bool :=
  let alloc_end := pyOrElse a.end_date farFutureOrdinal
  let new_end := pyOrElse end_date farFutureOrdinal
  a.start_date ≤ new_end && start_date ≤ alloc_end

/-- Percentage fallback chain of `allocation_validator.py` lines 53-65:
`internal_allocation_percentage`, else `allocation_percentage`, else
`utilization or 100` (so a `None` **or zero** utilization counts as 100,
because `0 or 100` evaluates to `100` in Python). -/
def fallbackPct (a : Alloc) : Int :=
  match a.internal_allocation_percentage with
  | some v => v
  | none =>
    match a.allocation_percentage with
    | some v => v
    | none =>
      match a.utilization with
      | some v => if v = 0 then 100 else v
      | none => 100

/-- Rows of `allocation_validator.py` lines 29-48: the employee's
allocations, minus a truthy excluded id, restricted to those overlapping
the candidate date range. -/
def overlappingAllocations (allocations : List Alloc) (employee_id : Nat)
    (start_date : Int) (end_date : Option Int) (excl : Option Nat) : List Alloc :=
  ((allocations.filter (fun a => a.emp_id = employee_id)).filter
      (passesExclusion excl)).filter
    (fun a => overlapsCandidate a start_date end_date)

/-- Sum of the fallback percentages over a list of rows
(`allocation_validator.py` lines 51-65). -/
def totalOverlapping (rows : List Alloc) : Int :=
  (rows.map fallbackPct).sum

/-- Employee lookup, `session.query(Employee).filter(Employee.id == ...)`. -/
def findEmployee (employees : List Employee) (employee_id : Nat) : Option Employee :=
  employees.find? (fun e => e.id = employee_id)

/-- Project lookup, `session.query(Project).filter(Project.id == ...)`. -/
def findProject (projects : List Project) (project_id : Nat) : Option Project :=
  projects.find? (fun p => p.id = project_id)

/-- Rejection message of `allocation_validator.py` lines 77-80. -/
def overAllocationMessage (employees : List Employee) (employee_id : Nat)
    (total current : Int) : String :=
  let employee_name :=
    match findEmployee employees employee_id with
    | some e => e.first_name ++ " " ++ e.last_name
    | none => "Employee " ++ toString employee_id
  "Total internal allocation for " ++ employee_name ++ " would be " ++
    toString total ++ "%. Maximum allowed is 100%. Current overlapping allocations total " ++
    toString current ++ "%."

/-- Happy path of `validate_allocation_percentage`
(`allocation_validator.py` lines 24-82): sum the fallback percentages of
the employee's other allocations overlapping the candidate range; a 0%
candidate is always accepted; otherwise accept iff the running total plus
the candidate does not exceed 100.  Returns `(is_valid, error_message)`. -/
def validateAllocationPercentage (db : Db) (employee_id : Nat)
    (internal_allocation_percentage : Int) (start_date : Int)
    (end_date : Option Int) (exclude_allocation_id : Option Nat) :
    Bool × Option String :=
  let total_allocation :=
    totalOverlapping
      (overlappingAllocations db.allocations employee_id start_date end_date
        exclude_allocation_id)
  if internal_allocation_percentage = 0 then
    (true, none)
  else
    let total := total_allocation + internal_allocation_percentage
    if total > 100 then
      (false, some (overAllocationMessage db.employees employee_id total total_allocation))
    else
      (true, none)

/-- Outcome of an external database call: `ok` carries the query result,
`err` models a raised exception. -/
inductive DbCall (α : Type) where
  | ok (val : α)
  | err (msg : String)
deriving DecidableEq

/-- Full `validate_allocation_percentage` including its `try`/`except`
(`allocation_validator.py` lines 24-89), with the two session reads (the
allocation query of line 40 and the employee query of line 77) passed as
explicit `DbCall` outcomes: any raised exception is swallowed and the
function returns `(True, None)` (fail open). -/
def validateAllocationPercentageRun (allocQuery : DbCall (List Alloc))
    (employeeQuery : DbCall (List Employee)) (employee_id : Nat)
    (internal_allocation_percentage : Int) (start_date : Int)
    (end_date : Option Int) (exclude_allocation_id : Option Nat) :
    Bool × Option String :=
  match allocQuery with
  | DbCall.err _ => (true, none)
  | DbCall.ok allocations =>
    let total_allocation :=
      totalOverlapping
        (overlappingAllocations allocations employee_id start_date end_date
          exclude_allocation_id)
    if internal_allocation_percentage = 0 then
      (true, none)
    else
      let total := total_allocation + internal_allocation_percentage
      if total > 100 then
        match employeeQuery with
        | DbCall.err _ => (true, none)
        | DbCall.ok employees =>
          (false, some (overAllocationMessage employees employee_id total total_allocation))
      else
        (true, none)

/-- Python truthiness of `allocation.is_trainee` (an unset attribute is
`None`, which is falsy, as is `False`). -/
def traineeFlag (a : Alloc) : Bool :=
  a.is_trainee.getD false

/-- Truthiness of `allocation.billing_rate and allocation.billing_rate != 0`
(`models.py` line 617): `None` and `0.0` are falsy. -/
def billingRateTruthyNonzero (a : Alloc) : Bool :=
  match a.billing_rate with
  | some r => r != 0
  | none => false

/-- Mirror of `validate_allocation` (`models.py` lines 577-625).  The range
checks compare the three percentage columns to integers directly; when one
of them carries Python `None` the comparison raises `TypeError`, modelled
as the `none` result.  Otherwise the collected error list is returned
(the function then raises `ValueError` iff the list is non-empty). -/
def validateAllocation (allocation : Alloc) : Option (List String) :=
  match allocation.internal_allocation_percentage,
      allocation.allocation_percentage, allocation.billable_percentage with
  | some internalPct, some allocPct, some billablePct =>
    let errors : List String :=
      (if internalPct < 0 ∨ internalPct > 100 then
        ["internal_allocation_percentage must be between 0 and 100"] else []) ++
      (if allocPct < 0 ∨ allocPct > 100 then
        ["allocation_percentage must be between 0 and 100"] else []) ++
      (if billablePct < 0 ∨ billablePct > 100 then
        ["billable_percentage must be between 0 and 100"] else []) ++
      (if traineeFlag allocation then
        (if billablePct ≠ 0 then
          ["Trainee allocations must have billable_percentage = 0"] else []) ++
        (if allocation.mentoring_primary_emp_id = none then
          ["Trainee allocations must have a mentoring_primary_emp_id"] else []) ++
        (if allocation.mentoring_primary_emp_id = some allocation.emp_id then
          ["Trainee cannot mentor themselves (mentoring_primary_emp_id cannot equal emp_id)"] else []) ++
        (if billingRateTruthyNonzero allocation then
          ["Trainee allocations should have billing_rate = 0 or NULL"] else [])
      else [])
    some errors
  | _, _, _ => none

/-- Write-time gate (`models.py` lines 628-632): the SQLAlchemy
`before_insert`/`before_update` listener calls `validate_allocation`, so an
insert or update persists iff validation neither raised a `TypeError`
(`none`) nor collected any error. -/
def persistsAllocation (allocation : Alloc) : Bool :=
  validateAllocation allocation = some []

/-- Active-today test of `employee_status.py` lines 48-51:
`start_date <= today` and (`end_date is None` or `end_date >= today`). -/
def activeToday (a : Alloc) (today : Int) : Bool :=
  a.start_date ≤ today &&
    (match a.end_date with
     | none => true
     | some d => d ≥ today)

/-- Actual-percentage chain of `employee_status.py` lines 61-65:
`internal_pct if internal_pct is not None else (alloc_pct if alloc_pct is
not None else (util if util is not None else 0))`. -/
def actualPct (a : Alloc) : Int :=
  match a.internal_allocation_percentage with
  | some v => v
  | none =>
    match a.allocation_percentage with
    | some v => v
    | none => a.utilization.getD 0

/-- Mirror of `get_derived_employee_status` (`employee_status.py`
lines 9-76) on the session branch: `NOTICE_PERIOD` is returned unchanged;
otherwise the employee's allocations active today are filtered, pure
trainee shadows with 0% actual percentage are discarded, and the result is
`ALLOCATED` iff a real active allocation remains, else `BENCH`. -/
def getDerivedEmployeeStatus (employee : Employee) (allocations : List Alloc)
    (today : Int) : EmployeeStatus :=
  if employee.status = EmployeeStatus.NOTICE_PERIOD then
    EmployeeStatus.NOTICE_PERIOD
  else
    if ((allocations.filter (fun a => a.emp_id = employee.id && activeToday a today)).filter
        (fun a => !(traineeFlag a && actualPct a = 0))).isEmpty then
      EmployeeStatus.BENCH
    else EmployeeStatus.ALLOCATED

/-- Mirror of `sync_employee_status` (`employee_status.py` lines 139-157):
writes the stored status only when the derived value differs, and returns
whether a change occurred. -/
def syncEmployeeStatus (employee : Employee) (allocations : List Alloc)
    (today : Int) : Employee × Bool :=
  if employee.status ≠ getDerivedEmployeeStatus employee allocations today then
    ({ employee with status := getDerivedEmployeeStatus employee allocations today }, true)
  else
    (employee, false)

/-- Domain-scoped rate card filter of `hr.py` lines 126-135: employee match,
exact domain match, `is_active`, and expiry null or not yet passed.  Note
the query applies no lower bound on `effective_date`. -/
def domainRateMatches (c : RateCard) (empId domainId : Nat) (today : Int) : Bool :=
  c.emp_id = empId && c.domain_id = some domainId && c.is_active &&
    (match c.expiry_date with
     | none => true
     | some d => d ≥ today)

/-- Base rate card filter of `hr.py` lines 141-152: employee match, null
domain, `rate_type == BASE`, `is_active`, and expiry null or not yet
passed.  Again no lower bound on `effective_date` is applied. -/
def baseRateMatches (c : RateCard) (empId : Nat) (today : Int) : Bool :=
  c.emp_id = empId && c.domain_id = none && c.rate_type = RateType.BASE &&
    c.is_active &&
    (match c.expiry_date with
     | none => true
     | some d => d ≥ today)

/-- Left-to-right scan keeping the card with the largest `effective_date`
seen so far (strictly larger replaces, so the first maximal card wins). -/
def pickEffective (acc : Option RateCard) : List RateCard → Option RateCard
  | [] => acc
  | c :: rest =>
    match acc with
    | none => pickEffective (some c) rest
    | some b =>
      pickEffective (if c.effective_date > b.effective_date then some c else some b) rest

/-- Mirror of `.order_by(RateCard.effective_date.desc()).first()`: the row
with the largest `effective_date` (first wins on ties; the SQL backend's
tie order is unspecified, and no claim depends on it). -/
def firstByEffectiveDesc (cards : List RateCard) : Option RateCard :=
  pickEffective none cards

/-- Mirror of `get_current_rate_card` (`hr.py` lines 112-160):
`if project_domain_id:` (a `None` or `0` domain id is falsy) first tries the
most recent domain-scoped card, then falls back to the most recent BASE
card; the happy path of its `try` is modelled (the except arm only covers a
missing table). -/
def getCurrentRateCard (cards : List RateCard) (employee : Employee)
    (project_domain_id : Option Nat) (today : Int) : Option RateCard :=
  let base_rate :=
    firstByEffectiveDesc (cards.filter (fun c => baseRateMatches c employee.id today))
  match project_domain_id with
  | some d =>
    if d = 0 then base_rate
    else
      match firstByEffectiveDesc
          (cards.filter (fun c => domainRateMatches c employee.id d today)) with
      | some domain_rate => some domain_rate
      | none => base_rate
  | none => base_rate

/-- Mirror of `calculate_monthly_hours` (`allocation_reports.py` lines 36-38):
exact (float) division, no rounding. -/
def calculate_monthly_hours (allocation_percentage : Rat) : Rat :=
  (160 * allocation_percentage) / 100

/-- Mirror of `calculate_billable_hours` (`allocation_reports.py`
lines 41-43): exact (float) division, no rounding. -/
def calculate_billable_hours (allocation_percentage billable_percentage : Rat) : Rat :=
  (160 * allocation_percentage * billable_percentage) / 10000

/-- Billed hours of the seed financial snapshot (`seed.py` lines 400-407):
`0` for trainees, else `int((total_hours * allocation_pct * billable_pct) /
10000)`; over the nonnegative inputs involved the `int()` truncation is the
floor, i.e. natural-number division. -/
def seedBilledHours (total_hours allocation_pct billable_pct : Nat)
    (is_trainee : Bool) : Nat :=
  if is_trainee then 0
  else (total_hours * allocation_pct * billable_pct) / 10000

/-- Cost hours of the seed financial snapshot (`seed.py` lines 403/408):
`int((total_hours * internal_pct) / 100)` in both branches. -/
def seedCostHours (total_hours internal_pct : Nat) : Nat :=
  (total_hours * internal_pct) / 100

/-- Revenue of the seed financial snapshot (`seed.py` lines 404/409):
`0.0` for trainees, else `billing_rate * billed_hours if billing_rate else
0.0` (a `None` or zero rate is falsy). -/
def seedEstimatedRevenue (billing_rate : Option Rat) (billed_hours : Nat)
    (is_trainee : Bool) : Rat :=
  if is_trainee then 0
  else
    match billing_rate with
    | some r => if r ≠ 0 then r * billed_hours else 0
    | none => 0

/-- Cost rate of the seed financial snapshot (`seed.py` line 411):
`employee.ctc_monthly / 160.0`. -/
def seedCostRate (ctc_monthly : Rat) : Rat :=
  ctc_monthly / 160

/-- JSON body of the `POST /<id>/allocation-check` response
(`employees.py` lines 754-760). -/
structure CheckResult where
  is_valid : Bool
  current_total : Int
  would_be_total : Int
  error_message : Option String
deriving DecidableEq

/-- Mirror of `check_employee_allocation` (`employees.py` lines 700-760).
The candidate percentage is taken after the request-field fallback
(`internal_allocation_percentage`, else `allocation_percentage`, else 100)
has been applied by the parsing code.  The endpoint recomputes the current
total with a loop that duplicates the validator's filter and fallback chain
verbatim, so the same embedded helpers are reused; `none` is the 404 branch
for an unknown employee. -/
def checkEmployeeAllocation (db : Db) (employee_id : Nat)
    (internal_allocation_percentage : Int) (start_date : Int)
    (end_date : Option Int) (exclude_allocation_id : Option Nat) :
    Option CheckResult :=
  match findEmployee db.employees employee_id with
  | none => none
  | some _ =>
    let current_total :=
      totalOverlapping
        (overlappingAllocations db.allocations employee_id start_date end_date
          exclude_allocation_id)
    if internal_allocation_percentage = 0 then
      some ⟨true, current_total, current_total, none⟩
    else
      let would_be_total := current_total + internal_allocation_percentage
      let v := validateAllocationPercentage db employee_id
        internal_allocation_percentage start_date end_date exclude_allocation_id
      some ⟨v.1, current_total, would_be_total, if v.1 then none else v.2⟩

/-- Mirror of `Auditor.validate_allocation` (`agents/auditor.py`
lines 21-43): employee and project must exist, the employee must be on
bench, and the CTC must fit the budget cap.  Comparing a CTC against a
`NULL` budget cap raises `TypeError` in Python (`None` is not orderable),
modelled as `none`; the calling endpoint then aborts with an error and no
state change. -/
def auditorValidateAllocation (db : Db) (emp_id proj_id : Nat) : Option Bool :=
  match findEmployee db.employees emp_id with
  | none => some false
  | some employee =>
    match findProject db.projects proj_id with
    | none => some false
    | some project =>
      if employee.status ≠ EmployeeStatus.BENCH then some false
      else
        match project.budget_cap with
        | none => none
        | some cap => some (employee.ctc_monthly ≤ cap)

/-- Fresh autoincrement id for a new allocation row. -/
def freshAllocId (db : Db) : Nat :=
  (db.allocations.map Alloc.id).foldr max 0 + 1

/-- Mirror of the `POST /allocate` endpoint (`resources.py` lines 75-175)
as a state transition returning the post-commit database.  Flow: find the
employee, run the auditor, run `validate_allocation_percentage` on the
requested internal percentage, build the row (with explicit
`internal_allocation_percentage`; `is_trainee` is left unset), pass the
`before_insert` validation gate, and sync the employee's derived status in
the same transaction.  Every rejected or raising branch leaves the
database unchanged (the session is rolled back or never flushed). -/
def allocateResourceStep (db : Db) (emp_id proj_id : Nat) (start_date : Int)
    (end_date : Option Int) (billing_rate : Option Rat)
    (allocation_percentage internal_allocation_percentage billable_percentage : Int)
    (today : Int) : Db :=
  match findEmployee db.employees emp_id with
  | none => db
  | some employee =>
    match auditorValidateAllocation db emp_id proj_id with
    | some true =>
      if (validateAllocationPercentage db emp_id internal_allocation_percentage
          start_date end_date none).1 then
        let allocation : Alloc :=
          { id := freshAllocId db, emp_id := emp_id, proj_id := proj_id,
            start_date := start_date, end_date := end_date,
            billing_rate := billing_rate,
            allocation_percentage := some allocation_percentage,
            billable_percentage := some billable_percentage,
            internal_allocation_percentage := some internal_allocation_percentage,
            utilization := none, is_trainee := none,
            mentoring_primary_emp_id := none }
        if persistsAllocation allocation then
          let allocations' := db.allocations ++ [allocation]
          { db with
            allocations := allocations',
            employees := db.employees.map (fun e =>
              if e.id = employee.id then
                (syncEmployeeStatus employee allocations' today).1
              else e) }
        else db
      else db
    | _ => db

/-- Mirror of one item of the `POST /projects/<id>/team` endpoint
(`projects.py` lines 491-598) as a state transition returning the
post-commit database.  Flow: find project and employee, range-check the two
request percentages, run `validate_allocation_percentage` **on the request's
`allocation_percentage`** (line 549), then either update the existing row
(dates, `allocation_percentage`, `billable_percentage`, optionally
`billing_rate`; `internal_allocation_percentage` is left untouched) or
create a new row that sets neither `internal_allocation_percentage` nor
`is_trainee`.  Each write then passes the `before_insert`/`before_update`
gate; a raising gate rolls the transaction back (for the creation branch
the gate always raises `TypeError`, because the unset
`internal_allocation_percentage` is `None` at event time). -/
def updateProjectTeamStep (db : Db) (project_id employee_id : Nat)
    (allocation_id : Option Nat) (start_date : Int) (end_date : Option Int)
    (allocation_percentage billable_percentage : Int)
    (billing_rate_field : Option (Option Rat)) : Db :=
  match findProject db.projects project_id with
  | none => db
  | some _ =>
    match findEmployee db.employees employee_id with
    | none => db
    | some _ =>
      if 0 ≤ allocation_percentage ∧ allocation_percentage ≤ 100 ∧
          0 ≤ billable_percentage ∧ billable_percentage ≤ 100 then
        if (validateAllocationPercentage db employee_id allocation_percentage
            start_date end_date allocation_id).1 then
          match allocation_id with
          | some aid =>
            match db.allocations.find? (fun a => a.id = aid && a.proj_id = project_id) with
            | none => db
            | some a =>
              let a' :=
                { a with
                  start_date := start_date, end_date := end_date,
                  allocation_percentage := some allocation_percentage,
                  billable_percentage := some billable_percentage,
                  billing_rate :=
                    match billing_rate_field with
                    | some r => r
                    | none => a.billing_rate }
              if persistsAllocation a' then
                { db with
                  allocations := db.allocations.map (fun b =>
                    if b.id = aid && b.proj_id = project_id then a' else b) }
              else db
          | none =>
            let allocation : Alloc :=
              { id := freshAllocId db, emp_id := employee_id,
                proj_id := project_id, start_date := start_date,
                end_date := end_date,
                billing_rate := billing_rate_field.getD none,
                allocation_percentage := some allocation_percentage,
                billable_percentage := some billable_percentage,
                internal_allocation_percentage := none, utilization := none,
                is_trainee := none, mentoring_primary_emp_id := none }
            if persistsAllocation allocation then
              { db with allocations := db.allocations ++ [allocation] }
            else db
        else db
      else db

/-- Database states reachable through the embedded allocation write
endpoints, starting from any state with no allocations. -/
inductive Reachable : Db → Prop where
  | init (employees : List Employee) (projects : List Project) :
      Reachable ⟨[], employees, projects⟩
  | allocateResource {db : Db} (emp_id proj_id : Nat) (start_date : Int)
      (end_date : Option Int) (billing_rate : Option Rat)
      (allocation_percentage internal_allocation_percentage billable_percentage : Int)
      (today : Int) : Reachable db →
      Reachable (allocateResourceStep db emp_id proj_id start_date end_date
        billing_rate allocation_percentage internal_allocation_percentage
        billable_percentage today)
  | updateProjectTeam {db : Db} (project_id employee_id : Nat)
      (allocation_id : Option Nat) (start_date : Int) (end_date : Option Int)
      (allocation_percentage billable_percentage : Int)
      (billing_rate_field : Option (Option Rat)) : Reachable db →
      Reachable (updateProjectTeamStep db project_id employee_id allocation_id
        start_date end_date allocation_percentage billable_percentage
        billing_rate_field)

/-- Claim C1's notion of an allocation's date range covering an instant:
`start ≤ t` and (`end` null or `t ≤ end`). -/
def coversInstant (a : Alloc) (t : Int) : Bool :=
  a.start_date ≤ t &&
    (match a.end_date with
     | none => true
     | some d => t ≤ d)

/-- Claim C1's per-instant committed capacity of an employee: the sum of
`internal_allocation_percentage` over the employee's allocations covering
the instant, with zero-percent allocations not counting (an unset
percentage contributes nothing). -/
def capacitySum (db : Db) (empId : Nat) (t : Int) : Int :=
  ((db.allocations.filter (fun a =>
      a.emp_id = empId && coversInstant a t &&
        a.internal_allocation_percentage != some 0)).map
    (fun a => a.internal_allocation_percentage.getD 0)).sum

/-- Claim C1's capacity invariant: no employee is committed beyond 100% at
any instant. -/
def CapacityInvariant (db : Db) : Prop :=
  ∀ empId t, capacitySum db empId t ≤ 100

/-- Modelled from claim C2's words, for comparison with the code only: the
fallback chain read as "internal_allocation_percentage, falling back to
allocation_percentage, then legacy utilization, then 100 when fields are
missing". -/
def claimFallbackPct (a : Alloc) : Int :=
  a.internal_allocation_percentage.getD
    (a.allocation_percentage.getD (a.utilization.getD 100))

/-- Claim C2's overlap relation with the far-future sentinel for null end
dates: `s1 ≤ e2 ∧ s2 ≤ e1`. -/
def claimOverlap (a : Alloc) (s : Int) (e : Option Int) : Bool :=
  a.start_date ≤ pyOrElse e farFutureOrdinal &&
    s ≤ pyOrElse a.end_date farFutureOrdinal

/-- Modelled from claim C2's words, for comparison with the code only: the
claimed acceptance condition — `p = 0`, or `p` plus the claimed fallback sum
over the employee's other, non-excluded allocations overlapping the
candidate range is at most 100. -/
def claimAccepts (db : Db) (employee_id : Nat) (p : Int) (s : Int)
    (e : Option Int) (excl : Option Nat) : Bool :=
  p = 0 ||
    (p + ((db.allocations.filter (fun a =>
        a.emp_id = employee_id &&
          (match excl with
           | some x => a.id != x
           | none => true) &&
          claimOverlap a s e)).map claimFallbackPct).sum ≤ 100)

/-- Test fixture: the bench employee of the C1 trace. -/
def e1 : Employee := ⟨1, "Asha", "Rao", EmployeeStatus.BENCH, 100⟩

/-- Test fixture: the project of the C1 trace, with a budget cap above the
employee's CTC. -/
def p10 : Project := ⟨10, some 1000⟩

/-- Test fixture: the initial database of the C1 trace. -/
def dbStart : Db := ⟨[], [e1], [p10]⟩

/-- C1 trace, step 1: allocate employee 1 at 100% internal for
2030-01-01 .. 2030-03-31 (ordinals 741078 .. 741167) through the
`/allocate` endpoint, evaluated on 2023-12-06 (ordinal 739000). -/
def dbAfterFirst : Db :=
  allocateResourceStep dbStart 1 10 741078 (some 741167) (some 50) 100 100 100 739000

/-- C1 trace, step 2: allocate employee 1 at 100% internal for the disjoint
range 2030-05-01 .. 2030-06-30 (ordinals 741198 .. 741258). -/
def dbAfterSecond : Db :=
  allocateResourceStep dbAfterFirst 1 10 741198 (some 741258) (some 50) 100 100 100 739000

/-- C1 trace, step 3: through the project-team endpoint, move allocation 2
onto 2030-01-01 .. 2030-03-31 with a requested `allocation_percentage` of 0
(always accepted by the validator), while the row's
`internal_allocation_percentage` stays 100. -/
def dbViolation : Db :=
  updateProjectTeamStep dbAfterSecond 10 1 (some 2) 741078 (some 741167) 0 0 none

/-- Test fixture for C2: a legacy-shaped allocation with no
`internal_allocation_percentage`, no `allocation_percentage`, and a stored
`utilization` of 0, spanning ordinals 1000 .. 1100 for employee 7. -/
def allocLegacyZeroUtil : Alloc :=
  ⟨1, 7, 1, 1000, some 1100, none, none, none, none, some 0, none, none⟩

/-- Test fixture for C2: database holding only the legacy allocation. -/
def dbLegacy : Db := ⟨[allocLegacyZeroUtil], [], []⟩

/-- Test fixture for C3: a trainee allocation satisfying every trainee rule
(0% billable, no billing rate, mentor 9 distinct from employee 4). -/
def traineeGood : Alloc :=
  ⟨3, 4, 2, 1000, none, none, some 0, some 0, some 100, none, some true, some 9⟩

/-- Test fixture for C3: a trainee allocation breaking three trainee rules
at once (10% billable, self-mentoring, nonzero billing rate). -/
def traineeBad : Alloc :=
  ⟨3, 4, 2, 1000, none, some 25, some 0, some 10, some 0, none, some true, some 4⟩

/-- Test fixture for C4: a stored-BENCH employee with one currently active
50%-internal allocation. -/
def e4 : Employee := ⟨2, "Dev", "Iyer", EmployeeStatus.BENCH, 100⟩

/-- Test fixture for C4: the allocation list of employee 2. -/
def allocs4 : List Alloc :=
  [⟨1, 2, 3, 1000, none, none, some 50, some 100, some 50, none, none, none⟩]

/-- Test fixture for C5: an employee stored as NOTICE_PERIOD whose only
allocation has already ended. -/
def e5 : Employee := ⟨3, "Meera", "Nair", EmployeeStatus.NOTICE_PERIOD, 100⟩

/-- Test fixture for C5: an allocation of employee 3 that ended at ordinal
1200, before the evaluation date. -/
def allocs5 : List Alloc :=
  [⟨1, 3, 3, 1000, some 1200, none, some 100, some 100, some 100, none, none, none⟩]

/-- Test fixture for C8: a domain-scoped rate card for employee 1 and
domain 2 whose `effective_date` (ordinal 20000) lies in the future of the
evaluation date (ordinal 10000), active and unexpired. -/
def futureCard : RateCard :=
  ⟨1, 1, some 2, 100, 20000, none, RateType.DOMAIN_SPECIFIC, true⟩

/-- Test fixture for C8: a currently effective BASE rate card for
employee 1. -/
def baseCard : RateCard :=
  ⟨2, 1, none, 80, 5000, none, RateType.BASE, true⟩

/-- Test fixture for C8: the employee owning the rate cards. -/
def e8 : Employee := ⟨1, "Priya", "Shah", EmployeeStatus.ALLOCATED, 3200⟩

/-- Test fixture for C9: the employee of the rejection scenario. -/
def e9 : Employee := ⟨1, "Rahul", "Menon", EmployeeStatus.ALLOCATED, 100⟩

/-- Test fixture for C9: the existing 60%-internal allocation of employee 1
over 2024-01-01 .. 2024-03-31 (ordinals 738886 .. 738976). -/
def alloc9 : Alloc :=
  ⟨1, 1, 5, 738886, some 738976, none, some 60, some 100, some 60, none, some false, none⟩

/-- Test fixture for C9: the database of the rejection scenario. -/
def db9 : Db := ⟨[alloc9], [e9], []⟩

/-- Test fixture for C9: the rejection message the scenario produces. -/
def msg9 : String := overAllocationMessage db9.employees 1 110 60

/-- Test fixture for C9: the expected response of the scenario — rejected,
`current_total = 60`, `would_be_total = 110`. -/
def r9 : CheckResult := ⟨false, 60, 110, some msg9⟩

/-- Helper: the employee returned by `sync_employee_status` carries the
derived status. -/
theorem sync_fst_status (e : Employee) (allocs : List Alloc) (today : Int) :
    (syncEmployeeStatus e allocs today).1.status =
      getDerivedEmployeeStatus e allocs today := by
  unfold syncEmployeeStatus
  by_cases h : e.status = getDerivedEmployeeStatus e allocs today
  · simp [h]
  · simp [h]

/-- Helper: outside the NOTICE_PERIOD short-circuit, derivation is the
active-and-real filter computation. -/
theorem derived_not_notice (e : Employee) (allocs : List Alloc) (today : Int)
    (h : e.status ≠ EmployeeStatus.NOTICE_PERIOD) :
    getDerivedEmployeeStatus e allocs today =
      (if ((allocs.filter (fun a => a.emp_id = e.id && activeToday a today)).filter
          (fun a => !(traineeFlag a && actualPct a = 0))).isEmpty then
        EmployeeStatus.BENCH
      else EmployeeStatus.ALLOCATED) := by
  rw [getDerivedEmployeeStatus, if_neg h]

/-- Helper: status derivation only reads the stored status through the
NOTICE_PERIOD test, so re-deriving after a sync returns the same value. -/
theorem derived_after_sync (e : Employee) (allocs : List Alloc) (today : Int) :
    getDerivedEmployeeStatus (syncEmployeeStatus e allocs today).1 allocs today =
      getDerivedEmployeeStatus e allocs today := by
  by_cases h : e.status = getDerivedEmployeeStatus e allocs today
  · unfold syncEmployeeStatus
    simp [h]
  · have hnd : e.status ≠ EmployeeStatus.NOTICE_PERIOD := by
      intro hn
      apply h
      rw [getDerivedEmployeeStatus, if_pos hn, hn]
    have hdn : getDerivedEmployeeStatus e allocs today ≠ EmployeeStatus.NOTICE_PERIOD := by
      rw [derived_not_notice e allocs today hnd]
      split <;> simp
    unfold syncEmployeeStatus
    rw [if_pos (show e.status ≠ getDerivedEmployeeStatus e allocs today from h)]
    rw [derived_not_notice _ allocs today (by exact hdn)]
    rw [derived_not_notice e allocs today hnd]

/-- C1.  Capacity invariant: the claim that every state reachable through
the allocation write endpoints keeps each employee's per-instant sum of
`internal_allocation_percentage` at or below 100 is violated by the code.
After two disjoint 100%-internal allocations are created through the
allocate endpoint, a project-team update with a requested
`allocation_percentage` of 0 (always accepted by the validator) moves the
second row onto the first row's date range while the row's
`internal_allocation_percentage` stays 100, so the reachable state
`dbViolation` commits employee 1 at 200% on 2030-01-23 (ordinal 741100). -/
theorem capacity_invariant_violated :
    Reachable dbViolation ∧ capacitySum dbViolation 1 741100 = 200 ∧
      ¬ CapacityInvariant dbViolation := by
  refine ⟨?_, by decide, fun hInv => absurd (hInv 1 741100) (by decide)⟩
  exact Reachable.updateProjectTeam 10 1 (some 2) 741078 (some 741167) 0 0 none
    (Reachable.allocateResource 1 10 741198 (some 741258) (some 50) 100 100 100 739000
      (Reachable.allocateResource 1 10 741078 (some 741167) (some 50) 100 100 100 739000
        (Reachable.init [e1] [p10])))

/-- C2, counterexample.  The claim's fallback chain ("internal, falling back
to allocation_percentage, then legacy utilization, then 100 when fields are
missing") predicts that an allocation whose only populated percentage field
is a stored `utilization` of 0 contributes 0, so a 50% candidate over the
same range would be accepted; the code's `utilization or 100` makes that
allocation contribute 100 and rejects the candidate. -/
theorem validator_fallback_counterexample :
    (validateAllocationPercentage dbLegacy 7 50 1000 (some 1100) none).1 = false ∧
      claimAccepts dbLegacy 7 50 1000 (some 1100) none = true ∧
      ¬ ((validateAllocationPercentage dbLegacy 7 50 1000 (some 1100) none).1 = true ↔
          claimAccepts dbLegacy 7 50 1000 (some 1100) none = true) :=
  ⟨by decide, by decide, by decide⟩

/-- C2, amended.  The validator accepts iff the candidate percentage is 0,
or the candidate plus the sum of the fallback percentages (internal, else
allocation_percentage, else legacy utilization **when nonzero**, else 100)
over the employee's other, non-excluded allocations overlapping the
candidate range (`s1 ≤ e2 ∧ s2 ≤ e1`, null end dates as the far-future
sentinel) is at most 100; a total of exactly 100 is accepted. -/
theorem validator_verdict_amended (db : Db) (employee_id : Nat) (p s : Int)
    (e : Option Int) (excl : Option Nat) :
    (validateAllocationPercentage db employee_id p s e excl).1 = true ↔
      p = 0 ∨
        p + ((db.allocations.filter (fun a =>
            a.emp_id = employee_id && passesExclusion excl a &&
              claimOverlap a s e)).map fallbackPct).sum ≤ 100 := by
  have hfilter : db.allocations.filter (fun a =>
      a.emp_id = employee_id && passesExclusion excl a && claimOverlap a s e) =
      overlappingAllocations db.allocations employee_id s e excl := by
    unfold overlappingAllocations
    rw [List.filter_filter, List.filter_filter]
    apply List.filter_congr
    intro a _
    show (decide (a.emp_id = employee_id) && passesExclusion excl a &&
        claimOverlap a s e) =
      (overlapsCandidate a s e && passesExclusion excl a &&
        decide (a.emp_id = employee_id))
    have hco : claimOverlap a s e = overlapsCandidate a s e := rfl
    rw [hco]
    cases decide (a.emp_id = employee_id) <;>
      cases passesExclusion excl a <;>
      cases overlapsCandidate a s e <;> rfl
  rw [hfilter]
  unfold validateAllocationPercentage totalOverlapping
  by_cases hp : p = 0
  · simp [hp]
  · simp only [hp, if_false, ite_false]
    split_ifs with hgt
    · constructor
      · intro hcontr
        simp at hcontr
      · intro hor
        rcases hor with h0 | hle
        · exact h0.elim
        · omega
    · constructor
      · intro _
        right
        omega
      · intro _
        rfl

/-- C5.  NOTICE_PERIOD stickiness: when the stored status is NOTICE_PERIOD,
status derivation returns NOTICE_PERIOD regardless of the employee's
allocations and of the evaluation date. -/
theorem notice_period_sticky (employee : Employee) (allocations : List Alloc)
    (today : Int) (h : employee.status = EmployeeStatus.NOTICE_PERIOD) :
    getDerivedEmployeeStatus employee allocations today =
      EmployeeStatus.NOTICE_PERIOD := by
  rw [getDerivedEmployeeStatus, if_pos h]

/-- C5, witness: employee 3 is stored as NOTICE_PERIOD and its only
allocation ended at ordinal 1200, before the evaluation date 1500; the
derived status is still NOTICE_PERIOD. -/
theorem notice_period_sticky_witness :
    e5.status = EmployeeStatus.NOTICE_PERIOD ∧
      getDerivedEmployeeStatus e5 allocs5 1500 = EmployeeStatus.NOTICE_PERIOD :=
  ⟨by decide, notice_period_sticky e5 allocs5 1500 (by decide)⟩

/-- C7.  Sync writes the stored status only when the derived value differs
(the returned flag is true iff they differed), the resulting employee
carries the derived status, and a second sync with unchanged data always
reports no change. -/
theorem sync_status_idempotent (e : Employee) (allocs : List Alloc) (today : Int) :
    ((syncEmployeeStatus e allocs today).2 = true ↔
        e.status ≠ getDerivedEmployeeStatus e allocs today) ∧
      (syncEmployeeStatus e allocs today).1.status =
        getDerivedEmployeeStatus e allocs today ∧
      (syncEmployeeStatus (syncEmployeeStatus e allocs today).1 allocs today).2 = false := by
  refine ⟨?_, sync_fst_status e allocs today, ?_⟩
  · unfold syncEmployeeStatus
    by_cases h : e.status = getDerivedEmployeeStatus e allocs today <;> simp [h]
  · have h1 := sync_fst_status e allocs today
    have h2 := derived_after_sync e allocs today
    set e2 := (syncEmployeeStatus e allocs today).1 with he2
    unfold syncEmployeeStatus
    rw [h2, h1]
    simp

/-- C10.  Fail-open: whenever one of the validator's session reads raises
(the allocation query, or the employee query used to build the rejection
message), the exception is swallowed and the verdict is `(True, None)`;
when both reads succeed the result coincides with the pure validator.  The
embedded function is total and takes no mutable state, matching "never
raises and never mutates state". -/
theorem validator_fail_open :
    (∀ (m : String) (employeeQuery : DbCall (List Employee)) (employee_id : Nat)
        (p s : Int) (e : Option Int) (excl : Option Nat),
       validateAllocationPercentageRun (DbCall.err m) employeeQuery employee_id
         p s e excl = (true, none)) ∧
      (∀ (allocQuery : DbCall (List Alloc)) (m : String) (employee_id : Nat)
          (p s : Int) (e : Option Int) (excl : Option Nat),
        validateAllocationPercentageRun allocQuery (DbCall.err m) employee_id
          p s e excl = (true, none)) ∧
      (∀ (allocations : List Alloc) (employees : List Employee)
          (employee_id : Nat) (p s : Int) (e : Option Int) (excl : Option Nat),
        validateAllocationPercentageRun (DbCall.ok allocations)
          (DbCall.ok employees) employee_id p s e excl =
          validateAllocationPercentage ⟨allocations, employees, []⟩ employee_id
            p s e excl) := by
  refine ⟨fun m q i p s e x => rfl, ?_, fun al em i p s e x => rfl⟩
  intro aq m employee_id p s e x
  cases aq with
  | err m2 => rfl
  | ok allocations =>
    unfold validateAllocationPercentageRun
    by_cases hp : p = 0
    · simp [hp]
    · simp only [hp, if_false, ite_false]
      split <;> rfl

/-- C3.  Trainee write-time invariants: (1) every allocation with
`is_trainee` that passes the write-time gate has `billable_percentage = 0`,
a mentor different from the trainee's own employee id, and a zero or absent
`billing_rate`; (2) violations are collected, each broken trainee rule
contributing its message to the returned list; (3) a non-trainee allocation
is subject only to the range checks, regardless of its
`mentoring_primary_emp_id`. -/
theorem trainee_write_invariants :
    (∀ a : Alloc, traineeFlag a = true → persistsAllocation a = true →
       a.billable_percentage = some 0 ∧
         (∃ m, a.mentoring_primary_emp_id = some m ∧ m ≠ a.emp_id) ∧
         (a.billing_rate = none ∨ a.billing_rate = some 0)) ∧
    (∀ (a : Alloc) (errs : List String), traineeFlag a = true →
       validateAllocation a = some errs →
       (∀ b, a.billable_percentage = some b → b ≠ 0 →
          "Trainee allocations must have billable_percentage = 0" ∈ errs) ∧
         (a.mentoring_primary_emp_id = none →
           "Trainee allocations must have a mentoring_primary_emp_id" ∈ errs) ∧
         (a.mentoring_primary_emp_id = some a.emp_id →
           "Trainee cannot mentor themselves (mentoring_primary_emp_id cannot equal emp_id)" ∈ errs) ∧
         (billingRateTruthyNonzero a = true →
           "Trainee allocations should have billing_rate = 0 or NULL" ∈ errs)) ∧
    (∀ (a : Alloc) (i al b : Int), a.internal_allocation_percentage = some i →
       a.allocation_percentage = some al → a.billable_percentage = some b →
       traineeFlag a = false →
       (persistsAllocation a = true ↔
         0 ≤ i ∧ i ≤ 100 ∧ 0 ≤ al ∧ al ≤ 100 ∧ 0 ≤ b ∧ b ≤ 100)) := by
  refine ⟨?_, ?_, ?_⟩
  · intro a ht hp
    unfold persistsAllocation validateAllocation at hp
    cases hi : a.internal_allocation_percentage with
    | none => rw [hi] at hp; simp at hp
    | some i =>
      cases hal : a.allocation_percentage with
      | none => rw [hi, hal] at hp; simp at hp
      | some al =>
        cases hb : a.billable_percentage with
        | none => rw [hi, hal, hb] at hp; simp at hp
        | some b =>
          rw [hi, hal, hb] at hp
          simp only [ht, if_true, decide_eq_true_eq, Option.some.injEq,
            List.append_eq_nil, ite_eq_right_iff, List.cons_ne_nil,
            imp_false, and_assoc] at hp
          obtain ⟨-, -, -, hb0, hm, hms, hbr⟩ := hp
          refine ⟨?_, ?_, ?_⟩
          · have hbz : b = 0 := by omega
            rw [hbz]
          · cases hm2 : a.mentoring_primary_emp_id with
            | none => exact absurd hm2 hm
            | some m =>
              refine ⟨m, rfl, ?_⟩
              intro hme
              apply hms
              rw [hm2, hme]
          · cases hr : a.billing_rate with
            | none => exact Or.inl rfl
            | some r =>
              right
              have hr0 : ¬ r ≠ 0 := by
                intro hrne
                apply hbr
                unfold billingRateTruthyNonzero
                rw [hr]
                simpa using hrne
              rw [not_not.mp hr0]
  · intro a errs ht hv
    unfold validateAllocation at hv
    cases hi : a.internal_allocation_percentage with
    | none => rw [hi] at hv; simp at hv
    | some i =>
      cases hal : a.allocation_percentage with
      | none => rw [hi, hal] at hv; simp at hv
      | some al =>
        cases hb : a.billable_percentage with
        | none => rw [hi, hal, hb] at hv; simp at hv
        | some b =>
          rw [hi, hal, hb] at hv
          simp only [ht, if_true, Option.some.injEq] at hv
          subst hv
          refine ⟨?_, ?_, ?_, ?_⟩
          · intro b2 hb2 hb20
            injection hb2 with hbeq
            subst hbeq
            simp [List.mem_append, hb20]
          · intro hm
            simp [List.mem_append, hm]
          · intro hm
            simp [List.mem_append, hm]
          · intro hbr
            simp [List.mem_append, hbr]
  · intro a i al b hi hal hb hnt
    unfold persistsAllocation validateAllocation
    rw [hi, hal, hb]
    simp only [hnt, if_false, Bool.false_eq_true, List.append_nil,
      Option.some.injEq, List.append_eq_nil, ite_eq_right_iff,
      List.cons_ne_nil, imp_false, decide_eq_true_eq]
    constructor
    · intro h
      omega
    · intro h
      omega

/-- C3, witness: a rule-abiding trainee allocation (0% billable, mentor 9
for employee 4, no billing rate) passes the gate, and the proved
consequences hold for it. -/
theorem trainee_write_invariants_witness :
    traineeFlag traineeGood = true ∧ persistsAllocation traineeGood = true ∧
      (traineeGood.billable_percentage = some 0 ∧
        (∃ m, traineeGood.mentoring_primary_emp_id = some m ∧ m ≠ traineeGood.emp_id) ∧
        (traineeGood.billing_rate = none ∨ traineeGood.billing_rate = some 0)) :=
  ⟨by decide, by decide,
    trainee_write_invariants.1 traineeGood (by decide) (by decide)⟩

/-- Helper: emptiness of the active-and-real filter is the negation of the
existence of a qualifying allocation. -/
theorem real_active_filter_empty_iff (employee : Employee)
    (allocations : List Alloc) (today : Int) :
    ((allocations.filter (fun a => a.emp_id = employee.id && activeToday a today)).filter
        (fun a => !(traineeFlag a && actualPct a = 0))).isEmpty = true ↔
      ¬ ∃ a ∈ allocations, a.emp_id = employee.id ∧ activeToday a today = true ∧
        ¬(traineeFlag a = true ∧ actualPct a = 0) := by
  rw [List.isEmpty_iff, List.eq_nil_iff_forall_not_mem]
  constructor
  · intro hall hex
    obtain ⟨a, ha, h1, h2, h3⟩ := hex
    apply hall a
    apply List.mem_filter.mpr
    refine ⟨List.mem_filter.mpr ⟨ha, ?_⟩, ?_⟩
    · simp [h1, h2]
    · cases htr : traineeFlag a with
      | false => simp [htr]
      | true =>
        simp only [htr, Bool.true_and, Bool.not_eq_true', decide_eq_false_iff_not]
        exact fun h0 => h3 ⟨htr, h0⟩
  · intro hnex a hmem
    apply hnex
    obtain ⟨hmem1, hreal⟩ := List.mem_filter.mp hmem
    obtain ⟨ha, hcond⟩ := List.mem_filter.mp hmem1
    simp only [Bool.and_eq_true, decide_eq_true_eq] at hcond
    refine ⟨a, ha, hcond.1, hcond.2, ?_⟩
    rintro ⟨htr, h0⟩
    rw [htr] at hreal
    simp [h0] at hreal

/-- C4.  Status derivation for an employee not stored as NOTICE_PERIOD: the
derived status is ALLOCATED iff some allocation of the employee is active
today and is not a pure trainee shadow with 0% actual capacity (a trainee
with nonzero internal allocation still counts), and BENCH otherwise. -/
theorem derived_status_characterization (employee : Employee)
    (allocations : List Alloc) (today : Int)
    (h : employee.status ≠ EmployeeStatus.NOTICE_PERIOD) :
    (getDerivedEmployeeStatus employee allocations today = EmployeeStatus.ALLOCATED ↔
      ∃ a ∈ allocations, a.emp_id = employee.id ∧ activeToday a today = true ∧
        ¬(traineeFlag a = true ∧ actualPct a = 0)) ∧
    (getDerivedEmployeeStatus employee allocations today = EmployeeStatus.BENCH ↔
      ¬ ∃ a ∈ allocations, a.emp_id = employee.id ∧ activeToday a today = true ∧
        ¬(traineeFlag a = true ∧ actualPct a = 0)) := by
  rw [derived_not_notice employee allocations today h]
  by_cases hE : ((allocations.filter (fun a => a.emp_id = employee.id && activeToday a today)).filter
      (fun a => !(traineeFlag a && actualPct a = 0))).isEmpty = true
  · rw [if_pos hE]
    have hno := (real_active_filter_empty_iff employee allocations today).mp hE
    refine ⟨⟨fun habs => absurd habs (by decide), fun hex => absurd hex hno⟩,
      ⟨fun _ => hno, fun _ => rfl⟩⟩
  · rw [if_neg hE]
    have hyes : ∃ a ∈ allocations, a.emp_id = employee.id ∧ activeToday a today = true ∧
        ¬(traineeFlag a = true ∧ actualPct a = 0) := by
      by_contra hn
      exact hE ((real_active_filter_empty_iff employee allocations today).mpr hn)
    refine ⟨⟨fun _ => hyes, fun _ => rfl⟩,
      ⟨fun habs => absurd habs (by decide), fun hn => absurd hyes hn⟩⟩

/-- C4, witness: bench-stored employee 2 has one allocation active on
ordinal 1500 with 50% internal capacity and no trainee flag, so the derived
status is ALLOCATED and the characterization holds. -/
theorem derived_status_characterization_witness :
    e4.status ≠ EmployeeStatus.NOTICE_PERIOD ∧
      getDerivedEmployeeStatus e4 allocs4 1500 = EmployeeStatus.ALLOCATED ∧
      ((getDerivedEmployeeStatus e4 allocs4 1500 = EmployeeStatus.ALLOCATED ↔
        ∃ a ∈ allocs4, a.emp_id = e4.id ∧ activeToday a 1500 = true ∧
          ¬(traineeFlag a = true ∧ actualPct a = 0)) ∧
      (getDerivedEmployeeStatus e4 allocs4 1500 = EmployeeStatus.BENCH ↔
        ¬ ∃ a ∈ allocs4, a.emp_id = e4.id ∧ activeToday a 1500 = true ∧
          ¬(traineeFlag a = true ∧ actualPct a = 0))) :=
  ⟨by decide, by decide, derived_status_characterization e4 allocs4 1500 (by decide)⟩

/-- C9.  Rejection report: whenever the allocation-check endpoint responds
with a rejection for a nonzero candidate, the response carries the
pre-candidate overlapping total in `current_total`, the attempted total
`current_total + p` in `would_be_total`, rejection happens exactly when the
attempted total exceeds 100, and the error message reports both totals. -/
theorem rejection_reports_totals (db : Db) (employee_id : Nat) (p s : Int)
    (e : Option Int) (excl : Option Nat) (r : CheckResult) (hp : p ≠ 0)
    (h : checkEmployeeAllocation db employee_id p s e excl = some r) :
    r.would_be_total = r.current_total + p ∧
      r.current_total =
        totalOverlapping (overlappingAllocations db.allocations employee_id s e excl) ∧
      (r.is_valid = false ↔ 100 < r.would_be_total) ∧
      (r.is_valid = false →
        r.error_message =
          some (overAllocationMessage db.employees employee_id r.would_be_total
            r.current_total)) := by
  unfold checkEmployeeAllocation at h
  cases hf : findEmployee db.employees employee_id with
  | none => rw [hf] at h; simp at h
  | some emp =>
    rw [hf] at h
    dsimp only at h
    rw [if_neg hp] at h
    by_cases hgt : totalOverlapping (overlappingAllocations db.allocations employee_id s e excl) + p > 100
    · have hv : validateAllocationPercentage db employee_id p s e excl =
          (false, some (overAllocationMessage db.employees employee_id
            (totalOverlapping (overlappingAllocations db.allocations employee_id s e excl) + p)
            (totalOverlapping (overlappingAllocations db.allocations employee_id s e excl)))) := by
        unfold validateAllocationPercentage
        dsimp only
        rw [if_neg hp, if_pos hgt]
      rw [hv] at h
      injection h with hr
      subst hr
      dsimp only
      exact ⟨rfl, rfl, ⟨fun _ => by omega, fun _ => rfl⟩, fun _ => rfl⟩
    · have hv : validateAllocationPercentage db employee_id p s e excl = (true, none) := by
        unfold validateAllocationPercentage
        dsimp only
        rw [if_neg hp, if_neg hgt]
      rw [hv] at h
      injection h with hr
      subst hr
      dsimp only
      refine ⟨rfl, rfl, ⟨fun habs => by simp at habs, fun hlt => absurd hlt (by omega)⟩,
        fun habs => by simp at habs⟩

/-- C9, witness: employee 1 holds a 60%-internal allocation over ordinals
738886 .. 738976 (2024-01-01 .. 2024-03-31); a 50% request over the same
range is rejected with `current_total = 60` and `would_be_total = 110`. -/
theorem rejection_reports_totals_witness :
    checkEmployeeAllocation db9 1 50 738886 (some 738976) none = some r9 ∧
      r9.current_total = 60 ∧ r9.would_be_total = 110 ∧ r9.is_valid = false ∧
      (r9.would_be_total = r9.current_total + 50 ∧
        r9.current_total =
          totalOverlapping (overlappingAllocations db9.allocations 1 738886 (some 738976) none) ∧
        (r9.is_valid = false ↔ 100 < r9.would_be_total) ∧
        (r9.is_valid = false →
          r9.error_message =
            some (overAllocationMessage db9.employees 1 r9.would_be_total
              r9.current_total))) :=
  ⟨by decide, by decide, by decide, by decide,
    rejection_reports_totals db9 1 50 738886 (some 738976) none r9 (by decide) (by decide)⟩

/-- C6, counterexample.  The report helper `calculate_billable_hours`
returns the exact quotient, not its floor: at allocation 33%, billable 50%
it yields 26.4 while the claimed floor gives 26 (the seed snapshot, which
truncates with `int()`, does floor). -/
theorem billable_hours_no_floor_counterexample :
    calculate_billable_hours 33 50 = 132 / 5 ∧
      seedBilledHours 160 33 50 false = 26 ∧
      calculate_billable_hours 33 50 ≠ ((seedBilledHours 160 33 50 false : Nat) : Rat) := by
  refine ⟨by norm_num [calculate_billable_hours], by decide, ?_⟩
  norm_num [calculate_billable_hours, seedBilledHours]

/-- C6, amended.  The seed financial snapshot computes
`billedHours = floor(totalHours * allocation% * billable% / 10000)` (0 for
trainees), `costHours = floor(totalHours * internal% / 100)`, cost rate
`ctc_monthly / 160`, and revenue `billing_rate * billedHours` (0 for
trainees or a missing rate); the report helper `calculate_billable_hours`
returns the exact quotient `160 * allocation% * billable% / 10000` without
flooring.  Both agree on the claim's examples: 160h at 50%/100% gives 80
billed hours, 75%/100% gives 120, and 25% internal gives 40 cost hours. -/
theorem financial_formulas_amended :
    (∀ t a b : Nat, (seedBilledHours t a b false : Nat) =
        Nat.floor (((t * a * b : Nat) : Rat) / ((10000 : Nat) : Rat)) ∧
        seedBilledHours t a b true = 0) ∧
      (∀ t i : Nat, (seedCostHours t i : Nat) =
        Nat.floor (((t * i : Nat) : Rat) / ((100 : Nat) : Rat))) ∧
      (∀ c : Rat, seedCostRate c = c / 160) ∧
      (∀ (r : Rat) (bh : Nat), seedEstimatedRevenue (some r) bh false = r * bh) ∧
      (∀ (br : Option Rat) (bh : Nat), seedEstimatedRevenue br bh true = 0) ∧
      (∀ (bh : Nat), seedEstimatedRevenue none bh false = 0) ∧
      (∀ a b : Rat, calculate_billable_hours a b = 160 * a * b / 10000) ∧
      (seedBilledHours 160 50 100 false = 80 ∧ calculate_billable_hours 50 100 = 80 ∧
        seedBilledHours 160 75 100 false = 120 ∧ calculate_billable_hours 75 100 = 120 ∧
        seedCostHours 160 25 = 40) := by
  refine ⟨?_, ?_, fun c => rfl, ?_, fun br bh => rfl, fun bh => rfl, fun a b => rfl,
    by decide, by norm_num [calculate_billable_hours], by decide,
    by norm_num [calculate_billable_hours], by decide⟩
  · intro t a b
    refine ⟨?_, rfl⟩
    rw [Nat.floor_div_nat, Nat.floor_natCast]
    rfl
  · intro t i
    rw [Nat.floor_div_nat, Nat.floor_natCast]
    rfl
  · intro r bh
    by_cases hr : r = 0
    · simp [seedEstimatedRevenue, hr]
    · simp [seedEstimatedRevenue, hr]

/-- Helper: the card produced by the effective-date scan comes from the
accumulator or the scanned list. -/
theorem pickEffective_mem (l : List RateCard) :
    ∀ (acc : Option RateCard) (c : RateCard), pickEffective acc l = some c →
      acc = some c ∨ c ∈ l := by
  induction l with
  | nil =>
    intro acc c h
    exact Or.inl h
  | cons x rest ih =>
    intro acc c h
    cases acc with
    | none =>
      simp only [pickEffective] at h
      rcases ih (some x) c h with h1 | h2
      · injection h1 with h1
        exact Or.inr (by rw [← h1]; exact List.mem_cons_self x rest)
      · exact Or.inr (List.mem_cons_of_mem x h2)
    | some b =>
      simp only [pickEffective] at h
      by_cases hgt : x.effective_date > b.effective_date
      · rw [if_pos hgt] at h
        rcases ih (some x) c h with h1 | h2
        · injection h1 with h1
          exact Or.inr (by rw [← h1]; exact List.mem_cons_self x rest)
        · exact Or.inr (List.mem_cons_of_mem x h2)
      · rw [if_neg hgt] at h
        rcases ih (some b) c h with h1 | h2
        · exact Or.inl h1
        · exact Or.inr (List.mem_cons_of_mem x h2)

/-- Helper: the card produced by the effective-date scan has the largest
`effective_date` among the scanned cards and the accumulator. -/
theorem pickEffective_max (l : List RateCard) :
    ∀ (acc : Option RateCard) (c : RateCard), pickEffective acc l = some c →
      (∀ b ∈ l, b.effective_date ≤ c.effective_date) ∧
        (∀ b0, acc = some b0 → b0.effective_date ≤ c.effective_date) := by
  induction l with
  | nil =>
    intro acc c h
    refine ⟨fun b hb => absurd hb (List.not_mem_nil b), fun b0 hb0 => ?_⟩
    rw [hb0] at h
    injection h with h
    rw [h]
  | cons x rest ih =>
    intro acc c h
    cases acc with
    | none =>
      simp only [pickEffective] at h
      obtain ⟨hall, hacc⟩ := ih (some x) c h
      have hx : x.effective_date ≤ c.effective_date := hacc x rfl
      refine ⟨?_, fun b0 hb0 => by simp at hb0⟩
      intro b hb
      rcases List.mem_cons.mp hb with hbx | hbr
      · rw [hbx]; exact hx
      · exact hall b hbr
    | some b1 =>
      simp only [pickEffective] at h
      by_cases hgt : x.effective_date > b1.effective_date
      · rw [if_pos hgt] at h
        obtain ⟨hall, hacc⟩ := ih (some x) c h
        have hx : x.effective_date ≤ c.effective_date := hacc x rfl
        refine ⟨?_, ?_⟩
        · intro b hb
          rcases List.mem_cons.mp hb with hbx | hbr
          · rw [hbx]; exact hx
          · exact hall b hbr
        · intro b0 hb0
          injection hb0 with hb0
          rw [← hb0]
          exact le_trans (le_of_lt hgt) hx
      · rw [if_neg hgt] at h
        obtain ⟨hall, hacc⟩ := ih (some b1) c h
        have hb1 : b1.effective_date ≤ c.effective_date := hacc b1 rfl
        refine ⟨?_, ?_⟩
        · intro b hb
          rcases List.mem_cons.mp hb with hbx | hbr
          · rw [hbx]
            exact le_trans (not_lt.mp hgt) hb1
          · exact hall b hbr
        · intro b0 hb0
          injection hb0 with hb0
          rw [← hb0]
          exact hb1

/-- Helper: the scan started from a card never returns `none`. -/
theorem pickEffective_some_isSome (l : List RateCard) :
    ∀ b, (pickEffective (some b) l).isSome = true := by
  induction l with
  | nil => intro b; rfl
  | cons x rest ih =>
    intro b
    simp only [pickEffective]
    by_cases hgt : x.effective_date > b.effective_date
    · rw [if_pos hgt]; exact ih x
    · rw [if_neg hgt]; exact ih b

/-- Helper: an empty scan result means an empty candidate list. -/
theorem firstByEffectiveDesc_eq_none (l : List RateCard)
    (h : firstByEffectiveDesc l = none) : l = [] := by
  cases l with
  | nil => rfl
  | cons x rest =>
    exfalso
    unfold firstByEffectiveDesc at h
    simp only [pickEffective] at h
    have hs := pickEffective_some_isSome rest x
    rw [h] at hs
    simp at hs

/-- Helper: a successful scan over a filtered card list yields a card
satisfying the filter and maximal in `effective_date` among the cards
satisfying it. -/
theorem firstByEffectiveDesc_filter_spec (cards : List RateCard)
    (p : RateCard → Bool) (c : RateCard)
    (h : firstByEffectiveDesc (cards.filter p) = some c) :
    p c = true ∧ c ∈ cards ∧
      ∀ b ∈ cards, p b = true → b.effective_date ≤ c.effective_date := by
  unfold firstByEffectiveDesc at h
  rcases pickEffective_mem (cards.filter p) none c h with h1 | h2
  · simp at h1
  · obtain ⟨hcc, hpc⟩ := List.mem_filter.mp h2
    refine ⟨hpc, hcc, ?_⟩
    intro b hb hpb
    exact (pickEffective_max (cards.filter p) none c h).1 b
      (List.mem_filter.mpr ⟨hb, hpb⟩)

/-- Helper: field content of a passing domain-scoped rate card filter. -/
theorem domainRateMatches_fields (c : RateCard) (empId dId : Nat) (today : Int)
    (h : domainRateMatches c empId dId today = true) :
    c.emp_id = empId ∧ c.domain_id = some dId ∧ c.is_active = true ∧
      (∀ d, c.expiry_date = some d → today ≤ d) := by
  unfold domainRateMatches at h
  simp only [Bool.and_eq_true, decide_eq_true_eq] at h
  obtain ⟨⟨⟨h1, h2⟩, h3⟩, h4⟩ := h
  refine ⟨h1, h2, h3, ?_⟩
  intro d hd
  rw [hd] at h4
  simpa using h4

/-- Helper: field content of a passing BASE rate card filter. -/
theorem baseRateMatches_fields (c : RateCard) (empId : Nat) (today : Int)
    (h : baseRateMatches c empId today = true) :
    c.emp_id = empId ∧ c.domain_id = none ∧ c.rate_type = RateType.BASE ∧
      c.is_active = true ∧ (∀ d, c.expiry_date = some d → today ≤ d) := by
  unfold baseRateMatches at h
  simp only [Bool.and_eq_true, decide_eq_true_eq] at h
  obtain ⟨⟨⟨⟨h1, h2⟩, h3⟩, h4⟩, h5⟩ := h
  refine ⟨h1, h2, h3, h4, ?_⟩
  intro d hd
  rw [hd] at h5
  simpa using h5

/-- C8, counterexample.  The rate card queries never require
`effective_date ≤ asOf`: a domain card whose effective date (ordinal 20000)
lies strictly in the future of the evaluation date (ordinal 10000) is
returned, contradicting the claim that a card is returned only when
currently effective. -/
theorem rate_card_future_effective_counterexample :
    getCurrentRateCard [futureCard] e8 (some 2) 10000 = some futureCard ∧
      10000 < futureCard.effective_date :=
  ⟨by decide, by decide⟩

/-- C8, amended.  `get_current_rate_card` returns only active cards of the
employee whose expiry is null or not yet passed (no lower bound on
`effective_date` is enforced); with a truthy domain supplied it prefers the
domain-scoped card with the latest effective date, and otherwise — also
when no domain card qualifies — falls back to the similarly-latest active
BASE card. -/
theorem rate_resolution_policy_amended (cards : List RateCard)
    (employee : Employee) (dom : Option Nat) (today : Int) (c : RateCard)
    (h : getCurrentRateCard cards employee dom today = some c) :
    c.is_active = true ∧ c.emp_id = employee.id ∧
      (∀ d, c.expiry_date = some d → today ≤ d) ∧
      ((∃ dId, dom = some dId ∧ dId ≠ 0 ∧ c.domain_id = some dId ∧
          ∀ b ∈ cards, domainRateMatches b employee.id dId today = true →
            b.effective_date ≤ c.effective_date) ∨
        (c.domain_id = none ∧ c.rate_type = RateType.BASE ∧
          (∀ b ∈ cards, baseRateMatches b employee.id today = true →
            b.effective_date ≤ c.effective_date) ∧
          ∀ dId, dom = some dId → dId ≠ 0 →
            ∀ b ∈ cards, ¬ domainRateMatches b employee.id dId today = true)) := by
  unfold getCurrentRateCard at h
  dsimp only at h
  cases dom with
  | none =>
    obtain ⟨hpc, hcc, hmax⟩ := firstByEffectiveDesc_filter_spec cards _ c h
    obtain ⟨h1, h2, h3, h4, h5⟩ := baseRateMatches_fields c employee.id today hpc
    exact ⟨h4, h1, h5, Or.inr ⟨h2, h3, hmax, fun dId hd => by simp at hd⟩⟩
  | some d =>
    dsimp only at h
    by_cases hd0 : d = 0
    · rw [if_pos hd0] at h
      obtain ⟨hpc, hcc, hmax⟩ := firstByEffectiveDesc_filter_spec cards _ c h
      obtain ⟨h1, h2, h3, h4, h5⟩ := baseRateMatches_fields c employee.id today hpc
      refine ⟨h4, h1, h5, Or.inr ⟨h2, h3, hmax, ?_⟩⟩
      intro dId hdeq hdne b hb
      injection hdeq with hdeq
      rw [hdeq] at hd0
      exact absurd hd0 hdne
    · rw [if_neg hd0] at h
      cases hdr : firstByEffectiveDesc
          (cards.filter (fun x => domainRateMatches x employee.id d today)) with
      | some domain_rate =>
        rw [hdr] at h
        injection h with h
        rw [← h]
        obtain ⟨hpc, hcc, hmax⟩ := firstByEffectiveDesc_filter_spec cards _ domain_rate hdr
        obtain ⟨h1, h2, h3, h4⟩ := domainRateMatches_fields domain_rate employee.id d today hpc
        exact ⟨h3, h1, h4, Or.inl ⟨d, rfl, hd0, h2, hmax⟩⟩
      | none =>
        rw [hdr] at h
        obtain ⟨hpc, hcc, hmax⟩ := firstByEffectiveDesc_filter_spec cards _ c h
        obtain ⟨h1, h2, h3, h4, h5⟩ := baseRateMatches_fields c employee.id today hpc
        refine ⟨h4, h1, h5, Or.inr ⟨h2, h3, hmax, ?_⟩⟩
        intro dId hdeq hdne b hb hmatch
        injection hdeq with hdeq
        have hnil := firstByEffectiveDesc_eq_none _ hdr
        have : b ∈ (cards.filter (fun x => domainRateMatches x employee.id d today)) :=
          List.mem_filter.mpr ⟨hb, by rw [hdeq]; exact hmatch⟩
        rw [hnil] at this
        exact absurd this (List.not_mem_nil b)

/-- C8, witness: with the future-effective domain card and a current BASE
card present and domain 2 supplied, the domain card is returned and all
proved properties hold for it. -/
theorem rate_resolution_policy_amended_witness :
    getCurrentRateCard [futureCard, baseCard] e8 (some 2) 10000 = some futureCard ∧
      (futureCard.is_active = true ∧ futureCard.emp_id = e8.id ∧
        (∀ d, futureCard.expiry_date = some d → (10000 : Int) ≤ d) ∧
        ((∃ dId, (some 2 : Option Nat) = some dId ∧ dId ≠ 0 ∧
            futureCard.domain_id = some dId ∧
            ∀ b ∈ [futureCard, baseCard],
              domainRateMatches b e8.id dId 10000 = true →
                b.effective_date ≤ futureCard.effective_date) ∨
          (futureCard.domain_id = none ∧ futureCard.rate_type = RateType.BASE ∧
            (∀ b ∈ [futureCard, baseCard],
              baseRateMatches b e8.id 10000 = true →
                b.effective_date ≤ futureCard.effective_date) ∧
            ∀ dId, (some 2 : Option Nat) = some dId → dId ≠ 0 →
              ∀ b ∈ [futureCard, baseCard],
                ¬ domainRateMatches b e8.id dId 10000 = true))) :=
  ⟨by decide,
    rate_resolution_policy_amended [futureCard, baseCard] e8 (some 2) 10000
      futureCard (by decide)⟩

end Benchcraft
